import Mathlib

/-!
Verification of the document-ingestion utilities of this repository:
the Azure OCR layout-reconstruction helpers (`haystack/utils/azure_ocr_utils.py`),
the recursive chunker (`haystack/components/preprocessors/recursive_chunker.py`),
the document token truncater
(`haystack/components/preprocessors/document_token_truncater.py`),
the `Document` value type (`haystack/dataclasses/document.py`) and the
constructor validation of `AzureOCRDocumentConverter`
(`haystack/components/converters/azure.py`).

Python strings are modelled as Lean `String` (a list of characters), with the
Python primitives (slicing, `str.split`, `str.strip` truthiness, membership
`in`) re-implemented below by structural recursion on the character list so
that every definition evaluates inside the kernel.
-/

/-! ## Python string primitives -/

/-- Python slicing `s[:-1]`: drop the final character (identity on `""`). -/
def pyDropLast (s : String) : String := String.mk s.data.dropLast

/-- Python slicing `s[k:]` for a non-negative index `k`. -/
def pyDropChars (s : String) (k : Nat) : String := String.mk (s.data.drop k)

/-- Python slicing `s[i:j]` for non-negative `i`, window of `len` characters. -/
def pySliceLen (s : String) (i len : Nat) : String := String.mk ((s.data.drop i).take len)

/-- Whether `needle` occurs as a contiguous substring of `hay`:
Python's `needle in hay` for strings, written on the character lists. -/
def listContainsSub (needle : List Char) : List Char → Bool
  | [] => needle.isEmpty
  | c :: rest => needle.isPrefixOf (c :: rest) || listContainsSub needle rest

/-- Python `p in s` on strings (substring containment). -/
def pyInStr (p s : String) : Bool := listContainsSub p.data s.data

/-- Python `s.startswith(p)` (used only to state properties). -/
def pyStartsWith (s p : String) : Bool := p.data.isPrefixOf s.data

/-- The characters removed by Python `str.strip()` with no argument
(ASCII whitespace; the Unicode whitespace also stripped by Python does not
occur in any input considered here). -/
def pyIsSpaceChar (c : Char) : Bool :=
  c = ' ' || c = '\t' || c = '\n' || c = '\r' || c = '\x0b' || c = '\x0c'

/-- Truthiness of Python `s.strip()` negated: `true` iff `s.strip()` is empty,
i.e. iff every character of `s` is whitespace. -/
def pyStripIsEmpty (s : String) : Bool := s.data.all pyIsSpaceChar

/-- Helper for `pySplit`: scan the text left to right, splitting at each
leftmost occurrence of the (non-empty) separator.  `fuel` bounds the
recursion; it is instantiated with the length of the text, which always
suffices because each step consumes at least one character. -/
def pySplitAux (sep : List Char) : Nat → List Char → List Char → List (List Char)
  | _, acc, [] => [acc.reverse]
  | 0, acc, rest => [acc.reverse ++ rest]
  | fuel + 1, acc, c :: rest =>
    if !sep.isEmpty && sep.isPrefixOf (c :: rest) then
      acc.reverse :: pySplitAux sep fuel [] (List.drop (sep.length - 1) rest)
    else
      pySplitAux sep fuel (c :: acc) rest

/-- Python `text.split(sep)` for a non-empty separator `sep`: splits on every
non-overlapping leftmost occurrence, keeping empty fragments (e.g.
`"    ".split(" ") == ["", "", "", "", ""]`).  The code under verification
never reaches `str.split` with an empty separator (Python would raise): the
empty string is routed to the sentence branch by `separator in "sentence"`. -/
def pySplit (text sep : String) : List String :=
  (pySplitAux sep.data text.length [] text.data).map String.mk

/-- Python dict lookup `d.get(k, default)` on an association list. -/
def dictGetD {α : Type} (d : List (Nat × α)) (k : Nat) (default : α) : α :=
  match d.find? (fun e => e.1 == k) with
  | some e => e.2
  | none => default

/-! ## RecursiveChunker (`recursive_chunker.py`)

The configuration fields mirror `RecursiveChunker.__init__`.  The sizes are
natural numbers: `_check_params` (modelled separately over `Int` so that the
rejected negative configurations are representable) guarantees
`0 ≤ chunk_overlap < chunk_size` for every constructed instance. -/

structure RecursiveChunker where
  chunk_size : Nat
  chunk_overlap : Nat
  separators : List String
  keep_separator : Bool
  is_separator_regex : Bool
deriving DecidableEq

/-- Translation of `RecursiveChunker._check_params` (lines 66-70): raises
when `chunk_overlap < 0`, then when `chunk_overlap >= chunk_size`. -/
def _check_params (chunk_size chunk_overlap : Int) : Except String Unit :=
  if chunk_overlap < 0 then
    Except.error "Overlap must be greater than zero."
  else if chunk_overlap ≥ chunk_size then
    Except.error "Overlap cannot be greater than or equal to the chunk size."
  else
    Except.ok ()

/-- Translation of the `AzureOCRDocumentConverter.__init__` validation
(azure.py lines 135-136): rejects `extract_tables_separately=True` combined
with `table_format="text"`. -/
def azure_init_table_format_check (extract_tables_separately : Bool)
    (table_format : String) : Except String Unit :=
  if extract_tables_separately && table_format == "text" then
    Except.error "Table format text is not supported when extracting tables separately. Choose csv."
  else
    Except.ok ()

/-- Translation of line 116, `if separator in "sentence":` — Python string
membership, i.e. a SUBSTRING test, not an equality test. -/
def uses_sentence_split (separator : String) : Bool :=
  pyInStr separator "sentence"

/-- Helper for `_apply_overlap`: emits the chunks after the first; `prev` is
the pre-overlap predecessor `chunks[idx - 1]`.  Each emitted chunk is
`chunks[idx - 1][max(0, len(chunks[idx - 1]) - chunk_overlap):] + chunk`
(lines 93-94; the `max` is the truncated `Nat` subtraction). -/
def applyOverlapTail (chunk_overlap : Nat) (prev : String) : List String → List String
  | [] => []
  | chunk :: rest =>
    (pyDropChars prev (prev.length - chunk_overlap) ++ chunk)
      :: applyOverlapTail chunk_overlap chunk rest

/-- Translation of `RecursiveChunker._apply_overlap` (lines 80-96): the chunk
at index 0 is kept unchanged, every later chunk is prefixed with the trailing
`chunk_overlap` characters of its pre-overlap predecessor. -/
def _apply_overlap (chunk_overlap : Nat) : List String → List String
  | [] => []
  | chunk :: rest => chunk :: applyOverlapTail chunk_overlap chunk rest

/-- Translation of the fallback on line 164:
`[text[i : i + chunk_size] for i in range(0, len(text), chunk_size - chunk_overlap)]`. -/
def fixed_width_fallback (text : String) (chunk_size chunk_overlap : Nat) : List String :=
  let step := chunk_size - chunk_overlap
  (List.range ((text.length + step - 1) / step)).map
    (fun q => pySliceLen text (q * step) chunk_size)

/-- Translation of the greedy accumulation loop of `_chunk_text`
(lines 129-156).  `current` is the running buffer (`"".join(current_chunk)`;
the buffer list is non-empty exactly when `current` is non-empty, because
blank fragments were filtered out before this point and `keep_separator` can
only lengthen a fragment).  `recurse` is the recursive call
`self._chunk_text` applied to an oversized fragment. -/
def accumulate_splits (recurse : String → List String) (chunk_size : Nat) :
    List String → String → List String
  | [], current => if current = "" then [] else [current]
  | split_text :: rest, current =>
    if chunk_size < current.length + split_text.length then
      (if current = "" then [] else [current]) ++
        (if chunk_size < split_text.length then recurse split_text else [split_text]) ++
        accumulate_splits recurse chunk_size rest ""
    else
      accumulate_splits recurse chunk_size rest (current ++ split_text)

/-- Translation of lines 116-124 of `_chunk_text`: pick the fragments for one
separator (sentence tokenizer when the separator is a substring of
`"sentence"`, regex split when `is_separator_regex`, literal split
otherwise), then drop the blank fragments.  `tok` is the external NLTK
sentence tokenizer (`self.nltk_tokenizer.split_sentences`, an external
collaborator kept abstract) and `rsplit sep text` is Python
`re.split(sep, text)` (likewise abstract; every theorem below holds for all
`tok` and `rsplit`). -/
def compute_splits (tok : String → List String) (rsplit : String → String → List String)
    (cfg : RecursiveChunker) (separator text : String) : List String :=
  let splits :=
    if uses_sentence_split separator then tok text
    else if cfg.is_separator_regex then rsplit separator text
    else pySplit text separator
  splits.filter (fun s => !pyStripIsEmpty s)

/-- Translation of the separator loop of `_chunk_text` (lines 115-161) and of
the final fallback (line 164).  `recurse` is the recursive call on oversized
fragments. -/
def try_separators (recurse : String → List String) (tok : String → List String)
    (rsplit : String → String → List String) (cfg : RecursiveChunker) (text : String) :
    List String → List String
  | [] => fixed_width_fallback text cfg.chunk_size cfg.chunk_overlap
  | separator :: rest =>
    let splits := compute_splits tok rsplit cfg separator text
    if splits.length = 1 then
      try_separators recurse tok rsplit cfg text rest
    else
      let split_texts := splits.map (fun s =>
        if cfg.keep_separator && separator != "sentence" then s ++ separator else s)
      let chunks := accumulate_splits recurse cfg.chunk_size split_texts ""
      if 0 < cfg.chunk_overlap then _apply_overlap cfg.chunk_overlap chunks else chunks

/-- Translation of `RecursiveChunker._chunk_text` (lines 98-164).  The `fuel`
argument bounds the recursion depth (the Python code recurses on strictly
shorter fragments; exhausted fuel falls back to fixed-width slicing, the same
terminal behaviour as the source's last resort). -/
def _chunk_text (tok : String → List String) (rsplit : String → String → List String)
    (cfg : RecursiveChunker) : Nat → String → List String
  | fuel, text =>
    if text.length ≤ cfg.chunk_size then [text]
    else
      match fuel with
      | 0 => fixed_width_fallback text cfg.chunk_size cfg.chunk_overlap
      | fuel + 1 => try_separators (_chunk_text tok rsplit cfg fuel) tok rsplit cfg text cfg.separators


/-! ## Helper lemmas about the string primitives -/

theorem pySliceLen_length_le (s : String) (i len : Nat) : (pySliceLen s i len).length ≤ len := by
  rw [pySliceLen, String.length_mk]
  exact List.length_take_le _ _

theorem string_length_append (a b : String) : (a ++ b).length = a.length + b.length :=
  String.length_append a b

/-! ## Theorems about the chunker -/

theorem fixed_width_fallback_length_le (text : String) (chunk_size chunk_overlap : Nat) :
    ∀ c ∈ fixed_width_fallback text chunk_size chunk_overlap, c.length ≤ chunk_size := by
  intro c hc
  simp only [fixed_width_fallback, List.mem_map] at hc
  obtain ⟨q, _, rfl⟩ := hc
  exact pySliceLen_length_le _ _ _

theorem accumulate_splits_length_le (recurse : String → List String) (chunk_size : Nat)
    (hrec : ∀ s, ∀ c ∈ recurse s, c.length ≤ chunk_size) :
    ∀ (sts : List String) (current : String), current.length ≤ chunk_size →
      ∀ c ∈ accumulate_splits recurse chunk_size sts current, c.length ≤ chunk_size := by
  intro sts
  induction sts with
  | nil =>
    intro current hcur c hc
    simp only [accumulate_splits] at hc
    split at hc
    · simp at hc
    · simp at hc
      exact hc ▸ hcur
  | cons st rest ih =>
    intro current hcur c hc
    simp only [accumulate_splits] at hc
    split at hc
    · rename_i hover
      rw [List.mem_append, List.mem_append] at hc
      rcases hc with (hc | hc) | hc
      · split at hc
        · simp at hc
        · simp at hc
          exact hc ▸ hcur
      · split at hc
        · exact hrec st c hc
        · rename_i hst
          simp at hc
          subst hc
          exact Nat.le_of_not_lt hst
      · exact ih "" (by simp) c hc
    · rename_i hfits
      refine ih (current ++ st) ?_ c hc
      rw [string_length_append]
      exact Nat.le_of_not_lt hfits

theorem try_separators_length_le (recurse : String → List String)
    (tok : String → List String) (rsplit : String → String → List String)
    (cfg : RecursiveChunker) (text : String)
    (h0 : cfg.chunk_overlap = 0)
    (hrec : ∀ s, ∀ c ∈ recurse s, c.length ≤ cfg.chunk_size) :
    ∀ (seps : List String), ∀ c ∈ try_separators recurse tok rsplit cfg text seps,
      c.length ≤ cfg.chunk_size := by
  intro seps
  induction seps with
  | nil =>
    intro c hc
    simp only [try_separators] at hc
    exact fixed_width_fallback_length_le text _ _ c hc
  | cons separator rest ih =>
    intro c hc
    simp only [try_separators] at hc
    split at hc
    · exact ih c hc
    · rw [h0] at hc
      simp only [Nat.lt_irrefl, if_false] at hc
      exact accumulate_splits_length_le recurse cfg.chunk_size hrec _ "" (by simp) c hc

/-- Claim C5: with `chunk_overlap = 0`, every chunk returned by
`_chunk_text` has length at most `chunk_size` — across the base case, the
greedy accumulation, the recursion into oversized fragments and the
fixed-width fallback, for every configuration, every input text, every fuel
and every behaviour of the external sentence tokenizer and regex splitter. -/
theorem chunk_text_length_le (tok : String → List String)
    (rsplit : String → String → List String) (cfg : RecursiveChunker)
    (h0 : cfg.chunk_overlap = 0) :
    ∀ (fuel : Nat) (text : String), ∀ c ∈ _chunk_text tok rsplit cfg fuel text,
      c.length ≤ cfg.chunk_size := by
  intro fuel
  induction fuel with
  | zero =>
    intro text c hc
    simp only [_chunk_text] at hc
    split at hc
    · rename_i hbase
      simp at hc
      exact hc ▸ hbase
    · exact fixed_width_fallback_length_le text _ _ c hc
  | succ fuel ih =>
    intro text c hc
    simp only [_chunk_text] at hc
    split at hc
    · rename_i hbase
      simp at hc
      exact hc ▸ hbase
    · exact try_separators_length_le _ tok rsplit cfg text h0 (fun s => ih s) cfg.separators c hc

theorem applyOverlapTail_length (chunk_overlap : Nat) :
    ∀ (l : List String) (prev : String), (applyOverlapTail chunk_overlap prev l).length = l.length := by
  intro l
  induction l with
  | nil => intro prev; rfl
  | cons c rest ih => intro prev; simp [applyOverlapTail, ih]

theorem applyOverlapTail_getD (chunk_overlap : Nat) :
    ∀ (l : List String) (prev : String) (i : Nat), i < l.length →
      (applyOverlapTail chunk_overlap prev l).getD i "" =
        pyDropChars ((prev :: l).getD i "") (((prev :: l).getD i "").length - chunk_overlap)
          ++ l.getD i "" := by
  intro l
  induction l with
  | nil =>
    intro prev i hi
    simp at hi
  | cons c rest ih =>
    intro prev i hi
    cases i with
    | zero => rfl
    | succ i =>
      have hi' : i < rest.length := by simpa using hi
      simpa [applyOverlapTail] using ih c i hi'

/-- Claim C4 (amended): whenever the overlap step `_apply_overlap` is applied
(it is applied to every chunk list returned through a separator split, at
every recursion level, when `chunk_overlap > 0`), the first chunk is kept
unchanged, the number of chunks is preserved, and every later chunk equals
the trailing `chunk_overlap` characters of its pre-overlap predecessor
(`chunks[i][max(0, len(chunks[i]) - chunk_overlap):]`, the whole predecessor
when it is shorter than the overlap) followed by the pre-overlap chunk — in
particular it begins with those trailing characters.  The claim as frozen
fails only for the fixed-width fallback, which bypasses `_apply_overlap`
(see the counterexample). -/
theorem c4_apply_overlap_prefix (chunk_overlap : Nat) (chunks : List String) (i : Nat)
    (_hk : 0 < chunk_overlap) (hi : i + 1 < chunks.length) :
    (_apply_overlap chunk_overlap chunks).length = chunks.length ∧
    (_apply_overlap chunk_overlap chunks).getD 0 "" = chunks.getD 0 "" ∧
    (_apply_overlap chunk_overlap chunks).getD (i + 1) "" =
      pyDropChars (chunks.getD i "") ((chunks.getD i "").length - chunk_overlap)
        ++ chunks.getD (i + 1) "" := by
  match chunks with
  | [] => simp at hi
  | chunk :: rest =>
    have hlen : i < rest.length := by simpa using hi
    refine ⟨by simp [_apply_overlap, applyOverlapTail_length], rfl, ?_⟩
    simpa [_apply_overlap] using applyOverlapTail_getD chunk_overlap rest chunk i hlen

/-- Witness for C4: the amended theorem applied to the concrete chunk list
`["abc", "defg"]` with `chunk_overlap = 2`: the second overlapped chunk is
`"bc" ++ "defg"`. -/
theorem c4_apply_overlap_prefix_witness :
    (_apply_overlap 2 ["abc", "defg"]).length = (["abc", "defg"] : List String).length ∧
    (_apply_overlap 2 ["abc", "defg"]).getD 0 "" = (["abc", "defg"] : List String).getD 0 "" ∧
    (_apply_overlap 2 ["abc", "defg"]).getD 1 "" =
      pyDropChars ((["abc", "defg"] : List String).getD 0 "")
          (((["abc", "defg"] : List String).getD 0 "").length - 2)
        ++ (["abc", "defg"] : List String).getD 1 "" :=
  c4_apply_overlap_prefix 2 ["abc", "defg"] 0 (by decide) (by decide)

/-- Counterexample for C4 as frozen: with `chunk_size = 5`, `chunk_overlap =
2` and a separator that never matches, `_chunk_text` takes the fixed-width
fallback: windows advance by `chunk_size - chunk_overlap = 3` characters, and
the final ragged window `"j"` does not begin with the trailing 2 characters
`"ij"` of its predecessor `"ghij"`. -/
theorem c4_fallback_counterexample :
    _chunk_text (fun _ => []) (fun _ _ => []) ⟨5, 2, ["z"], true, false⟩ 20 "abcdefghij" =
      ["abcde", "defgh", "ghij", "j"] ∧
    pyStartsWith "j" (pyDropChars "ghij" ("ghij".length - 2)) = false := by
  decide

/-- Claim C6: the branch test on line 116 is `separator in "sentence"`, a
Python substring test.  It is `true` for the exact sentinel, but also for
every substring of `"sentence"` such as `"e"`, `"sent"` and `""` — while the
tokenizer initialisation in `__init__` (line 63) and the `keep_separator`
test (line 136) compare for equality.  The separators `"e"` and `""` are
routed to the sentence tokenizer even though they differ from the sentinel. -/
theorem c6_sentence_branch_substring_test :
    uses_sentence_split "sentence" = true ∧
    uses_sentence_split "e" = true ∧
    ("e" == "sentence") = false ∧
    uses_sentence_split "sent" = true ∧
    ("sent" == "sentence") = false ∧
    uses_sentence_split "" = true ∧
    ("" == "sentence") = false ∧
    uses_sentence_split " " = false := by
  decide

/-- Claim C8: `RecursiveChunker._check_params` succeeds exactly for
`chunk_size > 0` with `0 ≤ chunk_overlap < chunk_size` (equivalently, it
raises exactly when `chunk_overlap < 0`, `chunk_overlap ≥ chunk_size` or
`chunk_size ≤ 0`), and the `AzureOCRDocumentConverter` constructor check
raises exactly when `extract_tables_separately` is true and `table_format`
is `"text"`. -/
theorem c8_construction_validation :
    ∀ (chunk_size chunk_overlap : Int) (extract_tables_separately : Bool) (table_format : String),
      ((_check_params chunk_size chunk_overlap).isOk = true ↔
        (0 < chunk_size ∧ 0 ≤ chunk_overlap ∧ chunk_overlap < chunk_size)) ∧
      ((_check_params chunk_size chunk_overlap).isOk = false ↔
        (chunk_overlap < 0 ∨ chunk_overlap ≥ chunk_size ∨ chunk_size ≤ 0)) ∧
      ((azure_init_table_format_check extract_tables_separately table_format).isOk = false ↔
        (extract_tables_separately = true ∧ table_format = "text")) := by
  intro chunk_size chunk_overlap ets table_format
  unfold _check_params azure_init_table_format_check
  split_ifs with h1 h2 h3 <;>
    simp_all [Except.isOk, Except.toBool] <;>
    omega

/-- Witness for C5: the bound applied to the configuration
`chunk_size = 10, chunk_overlap = 0, separators = [" "]` on the text
`"one two three four five"`, whose first returned chunk is `"one two "`. -/
theorem chunk_text_length_le_witness : ("one two " : String).length ≤ 10 :=
  chunk_text_length_le (fun _ => []) (fun _ _ => []) ⟨10, 0, [" "], true, false⟩ rfl 20
    "one two three four five" "one two " (by decide)

/-! ## Connected components of a finite graph

`get_rows_of_objects_by_page` delegates the grouping of objects into rows to
`networkx`: it builds a graph on the object indices of a page whose edges are
the self-pairs `[i, i]` and the close-on-y pairs `[i, j]`, and reads off
`nx.connected_components`.  The model computes, for each node, the set of
nodes reachable through the edge relation, by iterating a one-step expansion
`n` times (which reaches the fixed point, as proved below), and groups equal
reachable sets; `reachSet_spec` identifies membership with
`Relation.ReflTransGen`, i.e. with connectivity through a chain of edges,
which is the specification of `nx.connected_components` for a symmetric
relation with every node present. -/

/-- One expansion step: all nodes already in `s` plus every node adjacent to
a node of `s`. -/
def expandOnce (n : Nat) (adj : Fin n → Fin n → Bool) (s : Finset (Fin n)) : Finset (Fin n) :=
  Finset.univ.filter (fun j => j ∈ s ∨ ∃ i ∈ s, adj i j = true)

/-- Nodes reachable from `i`: `n` expansion steps starting from `{i}`. -/
def reachSet (n : Nat) (adj : Fin n → Fin n → Bool) (i : Fin n) : Finset (Fin n) :=
  (expandOnce n adj)^[n] {i}

theorem subset_expandOnce (n : Nat) (adj : Fin n → Fin n → Bool) (s : Finset (Fin n)) :
    s ⊆ expandOnce n adj s := by
  intro j hj
  simp only [expandOnce, Finset.mem_filter, Finset.mem_univ, true_and]
  exact Or.inl hj

theorem expandOnce_mono (n : Nat) (adj : Fin n → Fin n → Bool) (s t : Finset (Fin n))
    (hst : s ⊆ t) : expandOnce n adj s ⊆ expandOnce n adj t := by
  intro j hj
  simp only [expandOnce, Finset.mem_filter, Finset.mem_univ, true_and] at hj ⊢
  rcases hj with hj | ⟨i, hi, hadj⟩
  · exact Or.inl (hst hj)
  · exact Or.inr ⟨i, hst hi, hadj⟩

theorem iterate_expandOnce_mono (n : Nat) (adj : Fin n → Fin n → Bool) (k : Nat) :
    ∀ (s t : Finset (Fin n)), s ⊆ t →
      (expandOnce n adj)^[k] s ⊆ (expandOnce n adj)^[k] t := by
  induction k with
  | zero => intro s t hst; simpa using hst
  | succ k ih =>
    intro s t hst
    rw [Function.iterate_succ_apply, Function.iterate_succ_apply]
    exact ih _ _ (expandOnce_mono n adj s t hst)

theorem subset_iterate_expandOnce (n : Nat) (adj : Fin n → Fin n → Bool) (k : Nat)
    (s : Finset (Fin n)) : s ⊆ (expandOnce n adj)^[k] s := by
  induction k with
  | zero => simp
  | succ k ih =>
    rw [Function.iterate_succ_apply]
    exact ih.trans (iterate_expandOnce_mono n adj k s (expandOnce n adj s) (subset_expandOnce n adj s))

theorem iterate_expandOnce_succ_subset (n : Nat) (adj : Fin n → Fin n → Bool) (k : Nat)
    (s : Finset (Fin n)) :
    (expandOnce n adj)^[k] s ⊆ (expandOnce n adj)^[k + 1] s := by
  rw [Function.iterate_succ_apply]
  exact iterate_expandOnce_mono n adj k _ _ (subset_expandOnce n adj s)

theorem iterate_expandOnce_stabilizes (n : Nat) (adj : Fin n → Fin n → Bool)
    (s : Finset (Fin n)) (k : Nat)
    (hfix : (expandOnce n adj)^[k] s = (expandOnce n adj)^[k + 1] s) :
    ∀ (m : Nat), (expandOnce n adj)^[k + m] s = (expandOnce n adj)^[k] s := by
  intro m
  induction m with
  | zero => rfl
  | succ m ih =>
    have hkm : k + (m + 1) = (k + m) + 1 := by omega
    rw [hkm, Function.iterate_succ_apply', ih]
    calc expandOnce n adj ((expandOnce n adj)^[k] s)
        = (expandOnce n adj)^[k + 1] s := (Function.iterate_succ_apply' _ _ _).symm
      _ = (expandOnce n adj)^[k] s := hfix.symm

theorem iterate_expandOnce_card_grow (n : Nat) (adj : Fin n → Fin n → Bool)
    (s : Finset (Fin n)) :
    ∀ (k : Nat), (∀ m < k, (expandOnce n adj)^[m] s ≠ (expandOnce n adj)^[m + 1] s) →
      s.card + k ≤ ((expandOnce n adj)^[k] s).card := by
  intro k
  induction k with
  | zero => intro _; simp
  | succ k ih =>
    intro h
    have hk := ih (fun m hm => h m (by omega))
    have hss : (expandOnce n adj)^[k] s ⊂ (expandOnce n adj)^[k + 1] s :=
      HasSubset.Subset.ssubset_of_ne (iterate_expandOnce_succ_subset n adj k s) (h k (by omega))
    have := Finset.card_lt_card hss
    omega

theorem expandOnce_reachSet (n : Nat) (adj : Fin n → Fin n → Bool) (i : Fin n) :
    expandOnce n adj (reachSet n adj i) = reachSet n adj i := by
  have hex : ∃ m, m < n ∧ (expandOnce n adj)^[m] {i} = (expandOnce n adj)^[m + 1] {i} := by
    by_contra hno
    push_neg at hno
    have hgrow := iterate_expandOnce_card_grow n adj {i} n (fun m hm => hno m hm)
    have hcard : ((expandOnce n adj)^[n] ({i} : Finset (Fin n))).card ≤ n := by
      have := Finset.card_le_univ ((expandOnce n adj)^[n] ({i} : Finset (Fin n)))
      simpa using this
    simp [Finset.card_singleton] at hgrow
    omega
  obtain ⟨m, hmn, hfix⟩ := hex
  have hn : (expandOnce n adj)^[n] ({i} : Finset (Fin n)) = (expandOnce n adj)^[m] {i} := by
    have := iterate_expandOnce_stabilizes n adj {i} m hfix (n - m)
    rwa [show m + (n - m) = n by omega] at this
  have hn1 : (expandOnce n adj)^[n + 1] ({i} : Finset (Fin n)) = (expandOnce n adj)^[m] {i} := by
    have := iterate_expandOnce_stabilizes n adj {i} m hfix (n + 1 - m)
    rwa [show m + (n + 1 - m) = n + 1 by omega] at this
  show expandOnce n adj ((expandOnce n adj)^[n] {i}) = (expandOnce n adj)^[n] {i}
  rw [← Function.iterate_succ_apply' (expandOnce n adj) n {i}, hn1, hn]

theorem iterate_expandOnce_sound (n : Nat) (adj : Fin n → Fin n → Bool) (i : Fin n) :
    ∀ (k : Nat) (s : Finset (Fin n)),
      (∀ x ∈ s, Relation.ReflTransGen (fun a b => adj a b = true) i x) →
      ∀ j ∈ (expandOnce n adj)^[k] s, Relation.ReflTransGen (fun a b => adj a b = true) i j := by
  intro k
  induction k with
  | zero => intro s hs j hj; exact hs j (by simpa using hj)
  | succ k ih =>
    intro s hs j hj
    rw [Function.iterate_succ_apply] at hj
    refine ih (expandOnce n adj s) ?_ j hj
    intro x hx
    simp only [expandOnce, Finset.mem_filter, Finset.mem_univ, true_and] at hx
    rcases hx with hx | ⟨y, hy, hadj⟩
    · exact hs x hx
    · exact Relation.ReflTransGen.tail (hs y hy) hadj

theorem closed_absorbs (n : Nat) (adj : Fin n → Fin n → Bool) (s : Finset (Fin n))
    (hclosed : expandOnce n adj s = s) (i : Fin n) (hi : i ∈ s) (j : Fin n)
    (hij : Relation.ReflTransGen (fun a b => adj a b = true) i j) : j ∈ s := by
  induction hij with
  | refl => exact hi
  | @tail b c hab hbc ih =>
    rw [← hclosed]
    simp only [expandOnce, Finset.mem_filter, Finset.mem_univ, true_and]
    exact Or.inr ⟨b, ih, hbc⟩

/-- Membership in the computed reachable set coincides with connectivity
through a chain of edges. -/
theorem reachSet_spec (n : Nat) (adj : Fin n → Fin n → Bool) (i j : Fin n) :
    j ∈ reachSet n adj i ↔ Relation.ReflTransGen (fun a b => adj a b = true) i j := by
  constructor
  · intro hj
    refine iterate_expandOnce_sound n adj i n {i} ?_ j hj
    intro x hx
    rw [Finset.mem_singleton] at hx
    exact hx ▸ Relation.ReflTransGen.refl
  · intro hij
    have hi : i ∈ reachSet n adj i := by
      have := subset_iterate_expandOnce n adj n ({i} : Finset (Fin n))
      exact this (Finset.mem_singleton_self i)
    exact closed_absorbs n adj (reachSet n adj i) (expandOnce_reachSet n adj i) i hi j hij

/-- Computable connectivity test between two nodes. -/
def reachB (n : Nat) (adj : Fin n → Fin n → Bool) (i j : Fin n) : Bool :=
  decide (j ∈ reachSet n adj i)

/-- The connected components of the page graph, as `networkx` returns them:
one list of member indices per component (each component listed once;
`networkx` yields them as sets, so only the grouping is specified).  This is
the `merged_pairs_by_page` step of `get_rows_of_objects_by_page`
(lines 242-246). -/
def merged_pairs (n : Nat) (adj : Fin n → Fin n → Bool) : List (List (Fin n)) :=
  ((List.finRange n).map
    (fun i => (List.finRange n).filter (fun j => reachB n adj i j))).dedup

theorem mem_merged_pairs_iff (n : Nat) (adj : Fin n → Fin n → Bool)
    (hsym : ∀ a b, adj a b = adj b a) (i j : Fin n) :
    (∃ r ∈ merged_pairs n adj, i ∈ r ∧ j ∈ r) ↔
      Relation.ReflTransGen (fun a b => adj a b = true) i j := by
  have hsymP : Symmetric (fun a b => adj a b = true) := by
    intro a b hab
    rw [hsym b a]
    exact hab
  constructor
  · rintro ⟨r, hr, hi, hj⟩
    rw [merged_pairs, List.mem_dedup, List.mem_map] at hr
    obtain ⟨m, _, rfl⟩ := hr
    rw [List.mem_filter] at hi hj
    have hmi : Relation.ReflTransGen (fun a b => adj a b = true) m i := by
      have := hi.2
      rw [reachB, decide_eq_true_iff, reachSet_spec] at this
      exact this
    have hmj : Relation.ReflTransGen (fun a b => adj a b = true) m j := by
      have := hj.2
      rw [reachB, decide_eq_true_iff, reachSet_spec] at this
      exact this
    exact Relation.ReflTransGen.trans ((Relation.ReflTransGen.symmetric hsymP) hmi) hmj
  · intro hij
    refine ⟨(List.finRange n).filter (fun j => reachB n adj i j), ?_, ?_, ?_⟩
    · rw [merged_pairs, List.mem_dedup, List.mem_map]
      exact ⟨i, List.mem_finRange i, rfl⟩
    · rw [List.mem_filter]
      refine ⟨List.mem_finRange i, ?_⟩
      rw [reachB, decide_eq_true_iff, reachSet_spec]
    · rw [List.mem_filter]
      refine ⟨List.mem_finRange j, ?_⟩
      rw [reachB, decide_eq_true_iff, reachSet_spec]
      exact hij

/-! ## Azure OCR layout reconstruction (`azure_ocr_utils.py`)

A `TextObject` models a `DocumentLine` or `DocumentParagraph`: the content
string, the byte offset of its first span (`obj.spans[0].offset`, the only
span field the verified functions read), and its optional bounding polygon
(`DocumentLine.polygon` respectively
`DocumentParagraph.bounding_regions[0].polygon`, uniformly accessed through
`get_polygon` in the source), whose first point is the upper-left corner.
Coordinates are rationals (the source holds Python floats; every geometric
operation used — subtraction, absolute value, comparison — is exact on the
decimal inputs concerned, so rationals model them faithfully).
A `DocumentTable` is modelled by the two fields of its first span read by
`check_if_in_table` (`table.spans[0].offset` / `.length`); its cell grid
feeds only the CSV renderer, an external `pandas` concern outside the claims
checked here. -/

/-- Stable insertion into a sorted list: the new element goes after every
element `h` with `le h x`, so elements comparing equal keep their original
relative order (Python `sorted` is stable). -/
def pyInsort {α : Type} (le : α → α → Bool) (x : α) : List α → List α
  | [] => [x]
  | h :: t => if le h x then h :: pyInsort le x t else x :: h :: t

/-- Python `sorted(l, key=...)` as a stable insertion sort with a boolean
`le` comparison (the claims below depend only on membership and grouping, so
any stable ascending sort models `sorted` adequately). -/
def pySorted {α : Type} (le : α → α → Bool) (l : List α) : List α :=
  l.foldl (fun acc x => pyInsort le x acc) []

theorem mem_pyInsort {α : Type} (le : α → α → Bool) (x a : α) :
    ∀ (l : List α), a ∈ pyInsort le x l ↔ a = x ∨ a ∈ l := by
  intro l
  induction l with
  | nil => simp [pyInsort]
  | cons h t ih =>
    by_cases hle : le h x <;> (simp [pyInsort, hle, ih]; try tauto)

theorem mem_pySorted {α : Type} (le : α → α → Bool) (a : α) (l : List α) :
    a ∈ pySorted le l ↔ a ∈ l := by
  suffices h : ∀ (l : List α) (acc : List α),
      a ∈ l.foldl (fun acc x => pyInsort le x acc) acc ↔ a ∈ acc ∨ a ∈ l by
    rw [pySorted, h l []]
    simp
  intro l
  induction l with
  | nil => simp
  | cons x t ih =>
    intro acc
    rw [List.foldl_cons, ih (pyInsort le x acc), mem_pyInsort]
    simp
    tauto

structure Point where
  x : ℚ
  y : ℚ
deriving DecidableEq

structure TextObject where
  content : String
  offset : Nat
  polygon : Option (List Point)
deriving DecidableEq

structure DocumentTable where
  offset : Nat
  length : Nat
deriving DecidableEq

instance : Inhabited TextObject := ⟨⟨"", 0, none⟩⟩

/-- Translation of `get_polygon` (lines 195-203): both object kinds expose
their polygon through one accessor. -/
def get_polygon (obj : TextObject) : Option (List Point) := obj.polygon

/-- The `left_up` corner `get_polygon(obj)[0]`, with its y-value
(`left_up[1]`) and x-value (`left_up[0]`) read by the clustering and the
sorts.  The defaults are never reached on the branches where the source
reads the polygon (it is checked present there). -/
def upperLeft (obj : TextObject) : Point := ((get_polygon obj).getD []).headD ⟨0, 0⟩

/-- Line 228: `close_on_y_axis = abs(left_upi[1] - left_upj[1]) < threshold_y`,
as the edge relation on the indices of a page's object list. -/
def close_on_y_axis (objs : List TextObject) (threshold_y : ℚ)
    (i j : Fin objs.length) : Bool :=
  decide (|(upperLeft (objs.get i)).y - (upperLeft (objs.get j)).y| < threshold_y)

/-- Translation of the per-page body of `get_rows_of_objects_by_page`
(lines 219-256), before sorting: when every object has a polygon, the rows
are the connected components of the close-on-y graph (self-pairs `[i, i]`
and pairs `[i, j]` with `close_on_y_axis`; the self-pairs make every index a
node, and are absorbed by reflexivity of connectivity), with indices mapped
back to the objects (line 254); when some polygon is missing, only the
self-pairs are added, so every object becomes its own singleton row. -/
def rows_of_objects_on_page (objs : List TextObject) (threshold_y : ℚ) :
    List (List TextObject) :=
  if objs.all (fun o => (get_polygon o).isSome) then
    (merged_pairs objs.length (close_on_y_axis objs threshold_y)).map
      (fun r => r.map (fun idx => objs.get idx))
  else
    objs.map (fun o => [o])

/-- Translation of `_get_sorted_rows_of_objects_per_page` (lines 263-292) for
one page: each row is sorted by the x-value of the upper-left corner, then
the rows are sorted by the y-value of the upper-left corner of their first
(already x-sorted) element.  Python `sorted` and `pySorted` are both
stable. -/
def sort_rows_on_page (rows : List (List TextObject)) : List (List TextObject) :=
  let x_sorted := rows.map (fun row =>
    pySorted (fun a b => decide ((upperLeft a).x ≤ (upperLeft b).x)) row)
  pySorted (fun r1 r2 =>
    decide ((upperLeft (r1.headD default)).y ≤ (upperLeft (r2.headD default)).y)) x_sorted

/-- Translation of `get_rows_of_objects_by_page` (lines 205-261): cluster and
sort each page of the mapping.  (The source materialises the dictionaries
through `defaultdict`; pages whose object list is empty get an empty row
list on both sides of the model.) -/
def get_rows_of_objects_by_page (objects_by_page : List (Nat × List TextObject))
    (threshold_y : ℚ) : List (Nat × List (List TextObject)) :=
  objects_by_page.map (fun pe =>
    (pe.1, sort_rows_on_page (rows_of_objects_on_page pe.2 threshold_y)))

/-- Translation of `check_if_in_table` (lines 85-102): the early-exit loop is
`List.any`; the span test is inclusive at both ends. -/
def check_if_in_table (tables_on_page : List DocumentTable)
    (line_or_paragraph : TextObject) : Bool :=
  tables_on_page.any (fun table =>
    decide (table.offset ≤ line_or_paragraph.offset) &&
      decide (line_or_paragraph.offset ≤ table.offset + table.length))

/-- Translation of `remove_objects_contained_within_tables` (lines 104-122):
drop, page by page, every object contained in a table of the same page.
(The source accumulates kept objects into a `defaultdict`, so a page whose
objects are all dropped has no key there; the model keeps the page with an
empty list — lookups with default `[]` agree.) -/
def remove_objects_contained_within_tables
    (objects_by_page : List (Nat × List TextObject))
    (tables_by_page : List (Nat × List DocumentTable)) :
    List (Nat × List TextObject) :=
  objects_by_page.map (fun pe =>
    (pe.1, pe.2.filter (fun obj => !check_if_in_table (dictGetD tables_by_page pe.1 []) obj)))

/-- Translation of `construct_text_from_rows_of_objects_by_page`
(lines 294-319).  `pages` is the page-number enumeration of
`result.pages`.  Faithfully to lines 309-315, the trailing-character strip
`page_text = page_text[:-1]` sits INSIDE the object loop, directly after
`page_text += obj.content + " "`, so it runs once per object and removes the
space that was just appended.  (The `DocumentTable` branch of the loop
appends `get_table_content(...) + " "` — the same append-then-strip shape
with externally rendered CSV content, so it is not distinguished here.)
Each row then gets `"\n"`, and the page texts are joined with `"\f"`. -/
def construct_text_from_rows_of_objects_by_page
    (rows_of_objects_by_page : List (Nat × List (List TextObject)))
    (pages : List Nat) : String :=
  let texts := pages.map (fun page_number =>
    (dictGetD rows_of_objects_by_page page_number []).foldl
      (fun page_text row_of_objects =>
        (row_of_objects.foldl
          (fun acc obj => pyDropLast (acc ++ obj.content ++ " ")) page_text) ++ "\n")
      "")
  String.intercalate "\x0C" texts

/-- Claim C1 (divergence evidence): the Text Assembler, as written, strips
the just-appended space after EVERY object (the strip statement is inside
the object loop), so the two objects `"A"`, `"B"` of a single row come out as
`"AB\n"`, not as the space-separated `"A B\n"` required by the reference
serialization.  The claim's two-page single-object example is unaffected and
still yields exactly `"A\n\fB\n"`. -/
theorem c1_construct_text_evaluation :
    construct_text_from_rows_of_objects_by_page
        [(1, [[⟨"A", 0, none⟩, ⟨"B", 0, none⟩]])] [1] = "AB\n" ∧
    ("AB\n" == "A B\n") = false ∧
    construct_text_from_rows_of_objects_by_page
        [(1, [[⟨"A", 0, none⟩]]), (2, [[⟨"B", 0, none⟩]])] [1, 2] = "A\n\x0CB\n" := by
  refine ⟨by decide, by decide, by decide⟩

/-- Claim C2: under the hypothesis that every object of the page carries a
polygon, the rows computed for the page are exactly the connected components
of the close-on-y graph (mapped back to objects), and two object indices lie
in a common component if and only if they are joined by a chain of
close-on-y steps — the transitive closure, not a pairwise comparison. -/
theorem c2_rows_are_connected_components (objs : List TextObject) (threshold_y : ℚ)
    (hpoly : objs.all (fun o => (get_polygon o).isSome) = true) :
    rows_of_objects_on_page objs threshold_y =
      (merged_pairs objs.length (close_on_y_axis objs threshold_y)).map
        (fun r => r.map (fun idx => objs.get idx)) ∧
    ∀ i j : Fin objs.length,
      (∃ r ∈ merged_pairs objs.length (close_on_y_axis objs threshold_y), i ∈ r ∧ j ∈ r) ↔
        Relation.ReflTransGen
          (fun a b => |(upperLeft (objs.get a)).y - (upperLeft (objs.get b)).y| < threshold_y)
          i j := by
  constructor
  · rw [rows_of_objects_on_page, if_pos hpoly]
  · intro i j
    have hsym : ∀ a b, close_on_y_axis objs threshold_y a b = close_on_y_axis objs threshold_y b a := by
      intro a b
      simp only [close_on_y_axis]
      rw [abs_sub_comm]
    rw [mem_merged_pairs_iff objs.length (close_on_y_axis objs threshold_y) hsym i j]
    constructor
    · refine Relation.ReflTransGen.mono ?_
      intro a b hab
      rw [close_on_y_axis, decide_eq_true_iff] at hab
      exact hab
    · refine Relation.ReflTransGen.mono ?_
      intro a b hab
      rw [close_on_y_axis, decide_eq_true_iff]
      exact hab

/-- Concrete three-object page for the C2 witness: upper-left y-values `0`,
`1/25 = 0.04` and `2/25 = 0.08`. -/
def chained_triple_page : List TextObject :=
  [⟨"a", 0, some [⟨0, 0⟩]⟩, ⟨"b", 1, some [⟨0, 1/25⟩]⟩, ⟨"c", 2, some [⟨0, 2/25⟩]⟩]

/-- Witness for C2: the claim's concrete chained triple with
`threshold_y = 1/20 = 0.05`.  The outer objects differ by `0.08 ≥ 0.05`, yet
all three indices land in one row via the chain through the middle object. -/
theorem c2_rows_are_connected_components_witness :
    ∃ r ∈ merged_pairs chained_triple_page.length
        (close_on_y_axis chained_triple_page (1/20)),
      (⟨0, by decide⟩ : Fin chained_triple_page.length) ∈ r ∧
        (⟨2, by decide⟩ : Fin chained_triple_page.length) ∈ r := by
  refine ((c2_rows_are_connected_components chained_triple_page (1/20) (by decide)).2
      ⟨0, by decide⟩ ⟨2, by decide⟩).mpr ?_
  refine Relation.ReflTransGen.head (b := ⟨1, by decide⟩) ?_ (Relation.ReflTransGen.single ?_)
  · show |(upperLeft (chained_triple_page.get ⟨0, by decide⟩)).y -
        (upperLeft (chained_triple_page.get ⟨1, by decide⟩)).y| < 1/20
    norm_num [upperLeft, get_polygon, chained_triple_page]
    rw [abs_of_nonneg (by norm_num)]
    norm_num
  · show |(upperLeft (chained_triple_page.get ⟨1, by decide⟩)).y -
        (upperLeft (chained_triple_page.get ⟨2, by decide⟩)).y| < 1/20
    norm_num [upperLeft, get_polygon, chained_triple_page]
    rw [abs_of_nonneg (by norm_num)]
    norm_num

theorem dictGetD_map {α β : Type} (g : Nat → α → β) (k : Nat) (da : α) :
    ∀ (l : List (Nat × α)),
      dictGetD (l.map (fun pe => (pe.1, g pe.1 pe.2))) k (g k da) = g k (dictGetD l k da) := by
  intro l
  induction l with
  | nil => rfl
  | cons pe rest ih =>
    by_cases h : pe.1 == k
    · have hk : pe.1 = k := by simpa using h
      simp [dictGetD, List.find?_cons, h, hk]
    · simp only [List.map_cons, dictGetD, List.find?_cons] at ih ⊢
      simp only [h]
      exact ih

theorem mem_sorted_rows_mem_objs (objs : List TextObject) (threshold_y : ℚ) :
    ∀ r ∈ sort_rows_on_page (rows_of_objects_on_page objs threshold_y),
      ∀ o ∈ r, o ∈ objs := by
  intro r hr o ho
  simp only [sort_rows_on_page, mem_pySorted, List.mem_map] at hr
  obtain ⟨row0, hrow0, rfl⟩ := hr
  rw [mem_pySorted] at ho
  rw [rows_of_objects_on_page] at hrow0
  split at hrow0
  · rw [List.mem_map] at hrow0
    obtain ⟨ridx, _, rfl⟩ := hrow0
    rw [List.mem_map] at ho
    obtain ⟨idx, _, rfl⟩ := ho
    exact List.get_mem objs idx.1 idx.2
  · rw [List.mem_map] at hrow0
    obtain ⟨o', ho', rfl⟩ := hrow0
    rw [List.mem_singleton] at ho
    exact ho ▸ ho'

/-- Claim C3: with tables extracted separately, an object survives
`remove_objects_contained_within_tables` on its page exactly when no table of
that page spans its offset (`table_offset ≤ object_offset ≤ table_offset +
table_length`, inclusive at both ends); the in-table test is exactly that
span condition; and every object appearing in any row produced by the
(subsequent) clustering of the cleaned page objects is one of those kept
objects — so an in-table object never reaches a row, hence never the
assembled text. -/
theorem c3_table_objects_removed (objects_by_page : List (Nat × List TextObject))
    (tables_by_page : List (Nat × List DocumentTable)) (page_number : Nat)
    (obj : TextObject) :
    (obj ∈ dictGetD (remove_objects_contained_within_tables objects_by_page tables_by_page)
        page_number [] ↔
      (obj ∈ dictGetD objects_by_page page_number [] ∧
        check_if_in_table (dictGetD tables_by_page page_number []) obj = false)) ∧
    (check_if_in_table (dictGetD tables_by_page page_number []) obj = true ↔
      ∃ table ∈ dictGetD tables_by_page page_number [],
        table.offset ≤ obj.offset ∧ obj.offset ≤ table.offset + table.length) ∧
    (∀ (threshold_y : ℚ) (r : List TextObject),
      r ∈ sort_rows_on_page (rows_of_objects_on_page
        (dictGetD (remove_objects_contained_within_tables objects_by_page tables_by_page)
          page_number []) threshold_y) →
      ∀ o ∈ r,
        o ∈ dictGetD objects_by_page page_number [] ∧
          check_if_in_table (dictGetD tables_by_page page_number []) o = false) := by
  have hremove : dictGetD (remove_objects_contained_within_tables objects_by_page tables_by_page)
      page_number [] =
      (dictGetD objects_by_page page_number []).filter
        (fun o => !check_if_in_table (dictGetD tables_by_page page_number []) o) := by
    have := dictGetD_map
      (fun pn objs => objs.filter (fun o => !check_if_in_table (dictGetD tables_by_page pn []) o))
      page_number [] objects_by_page
    exact this
  have hfilter : ∀ (o : TextObject),
      o ∈ dictGetD (remove_objects_contained_within_tables objects_by_page tables_by_page)
          page_number [] ↔
        (o ∈ dictGetD objects_by_page page_number [] ∧
          check_if_in_table (dictGetD tables_by_page page_number []) o = false) := by
    intro o
    rw [hremove, List.mem_filter, Bool.not_eq_true']
  refine ⟨hfilter obj, ?_, ?_⟩
  · simp [check_if_in_table, List.any_eq_true, Bool.and_eq_true, decide_eq_true_iff]
  · intro threshold_y r hr o ho
    exact (hfilter o).mp (mem_sorted_rows_mem_objs _ threshold_y r hr o ho)

/-- Witness for C3: one page with an in-table object (offset 6 inside the
table span `[5, 8]`) and an out-of-table object (offset 20): the in-table
object is removed, the other is kept, and the single row computed from the
cleaned page contains only kept objects. -/
theorem c3_table_objects_removed_witness :
    ((⟨"out", 20, none⟩ : TextObject) ∈
        dictGetD (remove_objects_contained_within_tables
          [(1, [⟨"in", 6, none⟩, ⟨"out", 20, none⟩])] [(1, [⟨5, 3⟩])]) 1 [] ∧
      check_if_in_table (dictGetD [(1, [(⟨5, 3⟩ : DocumentTable)])] 1 [])
        (⟨"out", 20, none⟩ : TextObject) = false) ∧
    (∃ table ∈ dictGetD [(1, [(⟨5, 3⟩ : DocumentTable)])] 1 [],
      table.offset ≤ (6 : Nat) ∧ (6 : Nat) ≤ table.offset + table.length) ∧
    ((⟨"out", 20, none⟩ : TextObject) ∈ dictGetD [(1, [⟨"in", 6, none⟩, ⟨"out", 20, none⟩])] 1 [] ∧
      check_if_in_table (dictGetD [(1, [(⟨5, 3⟩ : DocumentTable)])] 1 [])
        (⟨"out", 20, none⟩ : TextObject) = false) := by
  refine ⟨⟨?_, by decide⟩, ?_, ?_⟩
  · exact (c3_table_objects_removed [(1, [⟨"in", 6, none⟩, ⟨"out", 20, none⟩])] [(1, [⟨5, 3⟩])]
      1 ⟨"out", 20, none⟩).1.mpr ⟨by decide, by decide⟩
  · exact (c3_table_objects_removed [(1, [⟨"in", 6, none⟩, ⟨"out", 20, none⟩])] [(1, [⟨5, 3⟩])]
      1 ⟨"in", 6, none⟩).2.1.mp (by decide)
  · exact (c3_table_objects_removed [(1, [⟨"in", 6, none⟩, ⟨"out", 20, none⟩])] [(1, [⟨5, 3⟩])]
      1 ⟨"out", 20, none⟩).2.2 0 [⟨"out", 20, none⟩] (by decide)
      ⟨"out", 20, none⟩ (by decide)

/-! ## Document (`document.py`)

Metadata values are strings or booleans (the two kinds the verified
components store); floating-point data (`score`, `embedding`,
`sparse_embedding.values`) is carried as its decimal rendering, which is all
`_create_id` consumes of it (Python f-string formatting).  The renderers
below model Python's f-string formatting of the field values; their exact
output for non-`None` values is irrelevant to the claims — what matters, and
is modelled exactly, is that a missing (`None`) field is rendered as the
four characters `"None"`, that an empty meta dict is rendered `"{}"`-like,
and that the six renderings are concatenated with NO delimiter between
them. -/

inductive PyVal where
  | str (s : String)
  | bool (b : Bool)
deriving DecidableEq

structure ByteStream where
  data : List Nat
  mime_type : Option String
deriving DecidableEq

structure SparseEmbedding where
  indices : List Nat
  values : List String
deriving DecidableEq

structure Document where
  id : String
  content : Option String
  blob : Option ByteStream
  meta : List (String × PyVal)
  score : Option String
  embedding : Option (List String)
  sparse_embedding : Option SparseEmbedding
deriving DecidableEq

/-- Python `f"{x}"` of an optional value: `None` renders as `"None"`. -/
def pyFormatOpt {α : Type} (f : α → String) : Option α → String
  | none => "None"
  | some a => f a

/-- Rendering of a metadata value inside the dict repr (abstracted). -/
def renderPyVal : PyVal → String
  | .str s => s
  | .bool b => cond b "True" "False"

/-- Rendering of the meta dict, `f"{meta}"` (shape abstracted; the empty
dict renders as a fixed two-character brace pair like Python's `{}`). -/
def renderMeta (meta : List (String × PyVal)) : String :=
  "\x7b" ++ String.intercalate ", " (meta.map (fun kv => kv.1 ++ ": " ++ renderPyVal kv.2)) ++ "\x7d"

/-- Rendering of the blob bytes, `f"{self.blob.data}"` (abstracted). -/
def renderBytes (data : List Nat) : String :=
  "b" ++ String.intercalate "," (data.map toString)

/-- Rendering of a dense embedding, `f"{self.embedding}"` (abstracted). -/
def renderEmbedding (values : List String) : String :=
  "[" ++ String.intercalate ", " values ++ "]"

/-- Rendering of `self.sparse_embedding.to_dict()` (abstracted). -/
def renderSparse (se : SparseEmbedding) : String :=
  "\x7bindices: " ++ String.intercalate ", " (se.indices.map toString) ++
    ", values: " ++ String.intercalate ", " se.values ++ "\x7d"

/-- Line 121, `text = self.content or None`: Python `or` maps the falsy
empty string to `None` as well. -/
def contentOrNone (content : Option String) : Option String :=
  match content with
  | none => none
  | some s => if s = "" then none else some s

/-- Translation of `Document._create_id` (lines 117-128) up to the SHA-256
call: the string
`f"{text}{blob}{mime_type}{meta}{embedding}{sparse_embedding}"` whose UTF-8
bytes are hashed.  The document id is the SHA-256 hex digest of this string,
so equal strings here give equal ids (SHA-256 is a function). -/
def _create_id_data (d : Document) : String :=
  pyFormatOpt (fun s => s) (contentOrNone d.content) ++
    pyFormatOpt renderBytes (d.blob.map (fun b => b.data)) ++
    pyFormatOpt (fun m => pyFormatOpt (fun s => s) m) (d.blob.map (fun b => b.mime_type)) ++
    renderMeta d.meta ++
    pyFormatOpt renderEmbedding d.embedding ++
    (match d.sparse_embedding with
      | some se => renderSparse se
      | none => "")

/-- Translation of `Document.__post_init__` (line 115),
`self.id = self.id or self._create_id()`: an explicitly supplied (non-empty,
hence truthy) id is kept unchanged; otherwise the generated digest is
used. -/
def document_final_id (supplied_id generated : String) : String :=
  if supplied_id = "" then generated else supplied_id

/-- Claim C7 (amended): the auto-generated id is deterministic — two
documents agreeing on `content`, `blob`, `meta`, `embedding` and
`sparse_embedding` produce the same SHA-256 preimage, hence the same id —
and an explicitly supplied id is kept unchanged.  The other half of the
frozen claim (changing any one of the five fields always changes the id) is
REFUTED by `c7_create_id_collision`: the preimage concatenates the fields'
renderings without any delimiter and renders a missing `content` as the
string `"None"`, so distinct field values can share one preimage. -/
theorem c7_document_id_deterministic (d1 d2 : Document) (supplied_id : String)
    (hs : supplied_id ≠ "")
    (hc : d1.content = d2.content) (hb : d1.blob = d2.blob) (hm : d1.meta = d2.meta)
    (he : d1.embedding = d2.embedding) (hse : d1.sparse_embedding = d2.sparse_embedding) :
    _create_id_data d1 = _create_id_data d2 ∧
    (∀ generated : String, document_final_id supplied_id generated = supplied_id) ∧
    (∀ generated : String, document_final_id "" generated = generated) := by
  refine ⟨?_, ?_, ?_⟩
  · rw [_create_id_data, _create_id_data, hc, hb, hm, he, hse]
  · intro generated
    rw [document_final_id, if_neg hs]
  · intro generated
    rfl

/-- Witness for C7: determinism applied to two structurally equal documents
with content `"x"`, plus a kept supplied id `"given-id"`. -/
theorem c7_document_id_deterministic_witness :
    _create_id_data ⟨"", some "x", none, [], none, none, none⟩ =
      _create_id_data ⟨"", some "x", none, [], none, none, none⟩ ∧
    (∀ generated : String, document_final_id "given-id" generated = "given-id") ∧
    (∀ generated : String, document_final_id "" generated = generated) :=
  c7_document_id_deterministic ⟨"", some "x", none, [], none, none, none⟩
    ⟨"", some "x", none, [], none, none, none⟩ "given-id" (by decide) rfl rfl rfl rfl rfl

/-- Counterexample for C7 as frozen: the documents `Document(content=None)`
and `Document(content="None")` differ in `content` but have the SAME SHA-256
preimage (both render as `"NoneNoneNone{}None"`), hence the same
auto-generated id — changing the `content` field does not always change the
id. -/
theorem c7_create_id_collision :
    _create_id_data ⟨"", none, none, [], none, none, none⟩ =
      _create_id_data ⟨"", some "None", none, [], none, none, none⟩ ∧
    decide ((⟨"", none, none, [], none, none, none⟩ : Document).content =
      (⟨"", some "None", none, [], none, none, none⟩ : Document).content) = false := by
  refine ⟨by decide, by decide⟩

/-! ## DocumentTokenTruncater (`document_token_truncater.py`)

`encode`/`decode` stand for the external Hugging Face tokenizer
(`self.tokenizer.encode` / `.decode`), and `hash` for SHA-256 in id
generation; every theorem holds for all of them.  `mkDocument` models the
construction `Document(content=..., meta=...)` with the remaining fields
defaulted, including the id generation of `__post_init__`. -/

/-- Python `int(bool(x))`-style truthiness of an optional string content:
`None` and `""` are falsy. -/
def contentTruthy (content : Option String) : Bool :=
  match content with
  | none => false
  | some s => !(s == "")

/-- Python dict assignment `m[k] = v` on an insertion-ordered dict: replace
in place when the key exists, append otherwise (also models
`{**m, k: v}`). -/
def pyDictSet (m : List (String × PyVal)) (k : String) (v : PyVal) : List (String × PyVal) :=
  if m.any (fun kv => kv.1 == k) then
    m.map (fun kv => if kv.1 == k then (k, v) else kv)
  else
    m ++ [(k, v)]

/-- Python dict lookup `m.get(k)`. -/
def pyDictGet (m : List (String × PyVal)) (k : String) : Option PyVal :=
  match m with
  | [] => none
  | kv :: rest => if kv.1 == k then some kv.2 else pyDictGet rest k

/-- Construction `Document(content=..., meta=...)`: all other fields default,
and `__post_init__` generates the id (the default id `""` is falsy, so the
digest of the hash preimage is taken). -/
def mkDocument (hash : String → String) (content : Option String)
    (meta : List (String × PyVal)) : Document :=
  let d0 : Document := ⟨"", content, none, meta, none, none, none⟩
  { d0 with id := document_final_id "" (hash (_create_id_data d0)) }

/-- The three truncation strategies of `TruncationStrategy`:
`beginning`/`ending`/`equal` model `BEGINNING`/`END`/`EQUAL`. -/
inductive TruncationStrategy where
  | beginning
  | ending
  | equal
deriving DecidableEq

structure DocumentTokenTruncater where
  max_token_len : Int
  strategy : TruncationStrategy
  reserve_token_len : Int

/-- Python list slicing `l[:k]` with a possibly negative `int` bound. -/
def pySliceToInt {α : Type} (l : List α) (k : Int) : List α :=
  if 0 ≤ k then l.take k.toNat else l.take (l.length - (-k).toNat)

/-- Python list slicing `l[i:]` with a possibly negative `int` start. -/
def pySliceFromInt {α : Type} (l : List α) (i : Int) : List α :=
  if 0 ≤ i then l.drop i.toNat else l.drop (l.length - (-i).toNat)

/-- Translation of `DocumentTokenTruncater._truncate_text` (lines 81-94):
texts within budget pass unchanged; `END` keeps `tokens[:max_tokens]`,
`BEGINNING` keeps `tokens[-max_tokens:]`, and `EQUAL` reaching this point
raises. -/
def _truncate_text (encode : String → List Nat) (decode : List Nat → String)
    (strategy : TruncationStrategy) (text : String) (max_tokens : Int) :
    Except String String :=
  if ((encode text).length : Int) ≤ max_tokens then
    Except.ok text
  else
    match strategy with
    | .ending => Except.ok (decode (pySliceToInt (encode text) max_tokens))
    | .beginning => Except.ok (decode (pySliceFromInt (encode text) (-max_tokens)))
    | .equal => Except.error "Invalid truncation strategy for single document"

/-- Translation of the `EQUAL` redistribution loop (lines 120-131). -/
def equal_truncate_loop (encode : String → List Nat) (decode : List Nat → String)
    (hash : String → String) (strategy : TruncationStrategy) (tokens_per_doc : Int) :
    List Document → Except String (List Document)
  | [] => Except.ok []
  | doc :: rest =>
    if !contentTruthy doc.content then
      (fun l => doc :: l) <$> equal_truncate_loop encode decode hash strategy tokens_per_doc rest
    else
      match _truncate_text encode decode strategy (doc.content.getD "") tokens_per_doc with
      | Except.error e => Except.error e
      | Except.ok t =>
        (fun l => mkDocument hash (some t) (pyDictSet doc.meta "truncated" (.bool true)) :: l) <$>
          equal_truncate_loop encode decode hash strategy tokens_per_doc rest

/-- Translation of the `BEGINNING`/`END` accumulation loop (lines 134-158):
documents are passed through while the running token count fits; the first
overflowing document is truncated to the remaining budget and the loop
breaks (also breaking, with nothing emitted, when no budget remains). -/
def truncate_run_loop (encode : String → List Nat) (decode : List Nat → String)
    (hash : String → String) (strategy : TruncationStrategy) (available : Int) :
    List Document → Int → Except String (List Document)
  | [], _ => Except.ok []
  | doc :: rest, current_tokens =>
    if !contentTruthy doc.content then
      (fun l => doc :: l) <$> truncate_run_loop encode decode hash strategy available rest current_tokens
    else
      let doc_tokens : Int := (encode (doc.content.getD "")).length
      if current_tokens + doc_tokens ≤ available then
        (fun l => doc :: l) <$>
          truncate_run_loop encode decode hash strategy available rest (current_tokens + doc_tokens)
      else
        let remaining_tokens := available - current_tokens
        if remaining_tokens ≤ 0 then
          Except.ok []
        else
          match _truncate_text encode decode strategy (doc.content.getD "") remaining_tokens with
          | Except.error e => Except.error e
          | Except.ok t =>
            Except.ok [mkDocument hash (some t) (pyDictSet doc.meta "truncated" (.bool true))]

/-- Translation of `DocumentTokenTruncater.run` (lines 97-158): an empty
batch returns `{"documents": []}` at once (line 104-105, BEFORE the budget
check); then `available_tokens = max_token_len - reserve_token_len ≤ 0`
raises; the `EQUAL` strategy redistributes only when the total exceeds the
budget (`Int.fdiv` is Python floor division `//`), and otherwise — like
`BEGINNING`/`END` — the accumulation loop runs. -/
def DocumentTokenTruncater_run (encode : String → List Nat) (decode : List Nat → String)
    (hash : String → String) (cfg : DocumentTokenTruncater) (documents : List Document) :
    Except String (List Document) :=
  if documents.isEmpty then
    Except.ok []
  else
    let available_tokens := cfg.max_token_len - cfg.reserve_token_len
    if available_tokens ≤ 0 then
      Except.error "No tokens available after reserving tokens"
    else
      if cfg.strategy = .equal ∧ 0 < documents.length then
        let total_tokens : Int := (documents.map (fun doc =>
          if contentTruthy doc.content then (encode (doc.content.getD "")).length else 0)).sum
        if available_tokens < total_tokens then
          let docs_with_content : Int :=
            (documents.filter (fun doc => contentTruthy doc.content)).length
          let tokens_per_doc := Int.fdiv available_tokens docs_with_content
          equal_truncate_loop encode decode hash cfg.strategy tokens_per_doc documents
        else
          truncate_run_loop encode decode hash cfg.strategy available_tokens documents 0
      else
        truncate_run_loop encode decode hash cfg.strategy available_tokens documents 0

/-- Claim C9 (amended): whenever `max_token_len - reserve_token_len ≤ 0`,
`run` raises `ValueError("No tokens available after reserving tokens")` for
every NON-EMPTY input document list, so no documents are returned.  (For the
empty input list the claim as frozen fails: line 104 returns
`{"documents": []}` before the budget check — see
`c9_empty_batch_counterexample`.) -/
theorem c9_zero_budget_raises (encode : String → List Nat) (decode : List Nat → String)
    (hash : String → String) (cfg : DocumentTokenTruncater) (documents : List Document)
    (hbudget : cfg.max_token_len - cfg.reserve_token_len ≤ 0) (hne : documents ≠ []) :
    DocumentTokenTruncater_run encode decode hash cfg documents =
      Except.error "No tokens available after reserving tokens" := by
  rw [DocumentTokenTruncater_run]
  rw [if_neg (by simpa [List.isEmpty_iff] using hne)]
  simp only [if_pos hbudget]

/-- Witness for C9: a truncater with `max_token_len = 5` and
`reserve_token_len = 7` raises on a one-document batch. -/
theorem c9_zero_budget_raises_witness :
    DocumentTokenTruncater_run (fun _ => []) (fun _ => "") (fun _ => "")
        ⟨5, .ending, 7⟩ [⟨"d1", some "hello", none, [], none, none, none⟩] =
      Except.error "No tokens available after reserving tokens" :=
  c9_zero_budget_raises (fun _ => []) (fun _ => "") (fun _ => "") ⟨5, .ending, 7⟩
    [⟨"d1", some "hello", none, [], none, none, none⟩] (by decide) (by decide)

/-- Counterexample for C9 as frozen: with the same exhausted budget
(`5 - 7 ≤ 0`) but an EMPTY input list, `run` does not raise — it returns the
empty document list, because the empty-batch early return precedes the
budget check. -/
theorem c9_empty_batch_counterexample :
    DocumentTokenTruncater_run (fun _ => []) (fun _ => "") (fun _ => "")
        ⟨5, .ending, 7⟩ [] = Except.ok [] ∧
    ((5 : Int) - 7 ≤ 0) := by
  refine ⟨rfl, by decide⟩

/-! ## RecursiveChunker.run and the shared meta mapping (`recursive_chunker.py`)

Python dicts are mutable objects shared by reference: `Document(content=
chunk, meta=doc.meta)` stores the parent's dict itself in the chunk (no copy
is taken anywhere on this path), and `new_doc.meta["original_id"] = doc.id`
then mutates that shared dict.  The model makes the aliasing explicit with a
store of meta dicts: a `DocumentRef` holds an index `meta_ref` into the
store, and mutation updates the store cell. -/

structure DocumentRef where
  id : String
  content : Option String
  meta_ref : Nat
deriving DecidableEq

/-- Translation of the loop body of `RecursiveChunker._run_one`
(lines 190-193): for each chunk, construct
`Document(content=chunk, meta=doc.meta)` — the id is generated from the
chunk content and the CURRENT state of the shared dict — and then set
`meta["original_id"] = doc.id` on the shared dict. -/
def run_one_loop (hash : String → String) (parent_id : String) (meta_ref : Nat) :
    List String → List (List (String × PyVal)) →
      List (List (String × PyVal)) × List DocumentRef
  | [], store => (store, [])
  | chunk :: rest, store =>
    let meta := store.getD meta_ref []
    let new_doc : DocumentRef := ⟨(mkDocument hash (some chunk) meta).id, some chunk, meta_ref⟩
    let store2 := store.set meta_ref (pyDictSet meta "original_id" (PyVal.str parent_id))
    let result := run_one_loop hash parent_id meta_ref rest store2
    (result.1, new_doc :: result.2)

/-- Translation of `RecursiveChunker._run_one` (lines 186-194). -/
def _run_one (tok : String → List String) (rsplit : String → String → List String)
    (hash : String → String) (cfg : RecursiveChunker) (fuel : Nat)
    (store : List (List (String × PyVal))) (doc : DocumentRef) :
    List (List (String × PyVal)) × List DocumentRef :=
  run_one_loop hash doc.id doc.meta_ref
    (_chunk_text tok rsplit cfg fuel (doc.content.getD "")) store

/-- Translation of `RecursiveChunker.run` (lines 196-212): documents with
falsy content (`None` or `""`) are skipped, the rest are chunked and the
results concatenated. -/
def RecursiveChunker_run (tok : String → List String)
    (rsplit : String → String → List String) (hash : String → String)
    (cfg : RecursiveChunker) (fuel : Nat) (store : List (List (String × PyVal)))
    (documents : List DocumentRef) :
    List (List (String × PyVal)) × List DocumentRef :=
  documents.foldl (fun st doc =>
    if !contentTruthy doc.content then st
    else
      let result := _run_one tok rsplit hash cfg fuel st.1 doc
      (result.1, st.2 ++ result.2)) (store, [])

theorem find_in_updated_dict (k : String) (v : PyVal) :
    ∀ (m : List (String × PyVal)), m.any (fun kv => kv.1 == k) = true →
      pyDictGet (m.map (fun kv => if kv.1 == k then (k, v) else kv)) k = some v := by
  intro m
  induction m with
  | nil => intro h; simp at h
  | cons kv rest ih =>
    intro h
    cases hk : (kv.1 == k) with
    | true => simp [pyDictGet, hk]
    | false =>
      have hrest : rest.any (fun kv => kv.1 == k) = true := by
        simp only [List.any_cons, hk, Bool.false_or] at h
        exact h
      simpa [pyDictGet, hk] using ih hrest

theorem find_in_appended_dict (k : String) (v : PyVal) :
    ∀ (m : List (String × PyVal)), m.any (fun kv => kv.1 == k) = false →
      pyDictGet (m ++ [(k, v)]) k = some v := by
  intro m
  induction m with
  | nil => intro _; simp [pyDictGet]
  | cons kv rest ih =>
    intro h
    simp only [List.any_cons, Bool.or_eq_false_iff] at h
    simpa [pyDictGet, h.1] using ih h.2

theorem pyDictGet_pyDictSet (k : String) (v : PyVal) (m : List (String × PyVal)) :
    pyDictGet (pyDictSet m k v) k = some v := by
  rw [pyDictSet]
  by_cases h : m.any (fun kv => kv.1 == k) = true
  · rw [if_pos h]
    exact find_in_updated_dict k v m h
  · rw [if_neg h]
    have hfalse : m.any (fun kv => kv.1 == k) = false := by
      cases hb : m.any (fun kv => kv.1 == k) with
      | true => exact absurd hb h
      | false => rfl
    exact find_in_appended_dict k v m hfalse

theorem getD_set_self {α : Type} (d : α) :
    ∀ (l : List α) (r : Nat) (m : α), r < l.length → (l.set r m).getD r d = m := by
  intro l
  induction l with
  | nil => intro r m hr; simp at hr
  | cons h t ih =>
    intro r m hr
    cases r with
    | zero => rfl
    | succ r => simpa [List.set, List.getD] using ih r m (by simpa using hr)

theorem run_one_loop_sets_original_id (hash : String → String) (parent_id : String)
    (meta_ref : Nat) :
    ∀ (chunks : List String) (store : List (List (String × PyVal))),
      meta_ref < store.length → chunks ≠ [] →
      pyDictGet ((run_one_loop hash parent_id meta_ref chunks store).1.getD meta_ref [])
          "original_id" = some (PyVal.str parent_id) := by
  intro chunks
  induction chunks with
  | nil => intro store _ hne; exact absurd rfl hne
  | cons chunk rest ih =>
    intro store hlt _
    by_cases hrest : rest = []
    · subst hrest
      show pyDictGet ((store.set meta_ref _).getD meta_ref []) "original_id" = _
      rw [getD_set_self [] store meta_ref _ hlt]
      exact pyDictGet_pyDictSet "original_id" (PyVal.str parent_id) _
    · exact ih _ (by simpa using hlt) hrest

theorem run_one_loop_refs (hash : String → String) (parent_id : String) (meta_ref : Nat) :
    ∀ (chunks : List String) (store : List (List (String × PyVal))),
      ∀ d ∈ (run_one_loop hash parent_id meta_ref chunks store).2, d.meta_ref = meta_ref := by
  intro chunks
  induction chunks with
  | nil => intro store d hd; simp [run_one_loop] at hd
  | cons chunk rest ih =>
    intro store d hd
    simp only [run_one_loop, List.mem_cons] at hd
    rcases hd with rfl | hd
    · rfl
    · exact ih _ d hd

/-- Claim C10 (amended): processing one parent document with non-empty
content through `_run_one` mutates the parent's meta mapping whenever at
least one chunk is produced: afterwards the shared dict holds
`"original_id" ↦ parent.id`, and every produced chunk document references
the parent's own meta mapping (the same store cell — no copy).  The frozen
claim's unconditional form fails when `_chunk_text` returns no chunks at
all, which happens for non-empty all-whitespace content (see
`c10_no_chunks_counterexample`). -/
theorem c10_run_one_mutates_parent_meta (tok : String → List String)
    (rsplit : String → String → List String) (hash : String → String)
    (cfg : RecursiveChunker) (fuel : Nat) (store : List (List (String × PyVal)))
    (doc : DocumentRef) (href : doc.meta_ref < store.length)
    (hchunks : _chunk_text tok rsplit cfg fuel (doc.content.getD "") ≠ []) :
    pyDictGet (((_run_one tok rsplit hash cfg fuel store doc).1).getD doc.meta_ref [])
        "original_id" = some (PyVal.str doc.id) ∧
    ∀ d ∈ (_run_one tok rsplit hash cfg fuel store doc).2, d.meta_ref = doc.meta_ref := by
  constructor
  · exact run_one_loop_sets_original_id hash doc.id doc.meta_ref _ store href hchunks
  · exact run_one_loop_refs hash doc.id doc.meta_ref _ store

/-- Witness for C10: a parent with content `"ab"` (one chunk, the base case)
and an initially empty meta dict at store cell 0: after `_run_one` the cell
holds `original_id ↦ "parent-1"`, and the produced chunk references cell
0. -/
theorem c10_run_one_mutates_parent_meta_witness :
    pyDictGet (((_run_one (fun _ => []) (fun _ _ => []) (fun _ => "h")
          ⟨3, 0, [" "], true, false⟩ 20 [[]] ⟨"parent-1", some "ab", 0⟩).1).getD 0 [])
        "original_id" = some (PyVal.str "parent-1") ∧
    ∀ d ∈ (_run_one (fun _ => []) (fun _ _ => []) (fun _ => "h")
        ⟨3, 0, [" "], true, false⟩ 20 [[]] ⟨"parent-1", some "ab", 0⟩).2,
      d.meta_ref = 0 :=
  c10_run_one_mutates_parent_meta (fun _ => []) (fun _ _ => []) (fun _ => "h")
    ⟨3, 0, [" "], true, false⟩ 20 [[]] ⟨"parent-1", some "ab", 0⟩ (by decide) (by decide)

/-- Counterexample for C10 as frozen: the parent content `"    "` (four
spaces) is non-empty and truthy, so `run` does not skip it; yet splitting on
`" "` leaves only blank fragments, all filtered out, so `_chunk_text`
returns NO chunks, the loop body never runs, and the parent's meta mapping
is left without `"original_id"`. -/
theorem c10_no_chunks_counterexample :
    RecursiveChunker_run (fun _ => []) (fun _ _ => []) (fun _ => "h")
        ⟨3, 0, [" "], true, false⟩ 20 [[]] [⟨"parent-1", some "    ", 0⟩] = ([[]], []) ∧
    contentTruthy (some "    ") = true ∧
    pyDictGet ((RecursiveChunker_run (fun _ => []) (fun _ _ => []) (fun _ => "h")
          ⟨3, 0, [" "], true, false⟩ 20 [[]] [⟨"parent-1", some "    ", 0⟩]).1.getD 0 [])
        "original_id" = none := by
  refine ⟨by decide, by decide, by decide⟩
